import Mathlib

/-! Serial monitor: line decoder and write tracker.

A shallow embedding of `src/mainwindow.cpp` / `src/mainwindow.h`:

* `MainWindow` — the members of the C++ class that the slots read and write
  (`m_bytesToWrite`, `received_data`, the timer, the port, the eight value labels);
* `readData`, `updateSerialValue` — the line accumulator and field decoder;
* `writeData`, `handleBytesWritten`, `handleWriteTimeout` — the write tracker;
* `closeSerialPort`, `handleError`, `ClearSerialValue` — session control.

Qt library behaviour the slots rely on is modelled explicitly and kept apart from the
slots: `QString` is a list of characters, `QString::fromUtf8` is `fromUtf8`,
`QRegularExpression("-?\\d+(\\.\\d+)?")` is
`reMatch`, `QString::split(":")` is `split`, the single-shot `QTimer` is an optional
remaining time, and `QString::number(captured.toDouble(), 'g', 10)` is `numberG10`
(exact rational arithmetic, no machine floats).
-/

namespace SerialMonitor

/-! ## Text -/

/-- A `QString`, as its sequence of characters. -/
abbrev QString := List Char

/-- A `QByteArray`. -/
abbrev QByteArray := List UInt8

/-- The class `\d` of the pattern: an ASCII decimal digit. -/
def isDigit (c : Char) : Bool := decide ('0' ≤ c) && decide (c ≤ '9')

/-- Qt's `QString::split(sep)` for a one-character separator (empty parts are kept). -/
def split (sep : Char) : QString → List QString
  | [] => [[]]
  | c :: t =>
    if c = sep then [] :: split sep t
    else
      match split sep t with
      | [] => [[c]]
      | h :: r => (c :: h) :: r

/-! ## The pattern `-?\d+(\.\d+)?` -/

/-- The part `\d+(\.\d+)?` of the pattern tried at the very start of `r`, after the text
`sign` was consumed: `\d+` takes every digit, then the group takes `.` and every digit after
it when at least one digit follows the `.`, and is skipped otherwise. -/
def matchUnsigned (sign r : QString) : Option QString :=
  let ip := r.takeWhile isDigit
  if ip = [] then none
  else
    match r.dropWhile isDigit with
    | '.' :: t =>
      let fp := t.takeWhile isDigit
      if fp = [] then some (sign ++ ip) else some (sign ++ ip ++ '.' :: fp)
    | _ => some (sign ++ ip)

/-- The pattern `-?\d+(\.\d+)?` tried at the very start of `s`: the captured text when the
pattern matches there. `-?` is greedy; when `-` is taken and no digit follows, the only
alternative (no sign) meets `-` where a digit is required and fails as well. -/
def matchHere : QString → Option QString
  | '-' :: t => matchUnsigned ['-'] t
  | s => matchUnsigned [] s

/-- The result of `re.match(subject)`: `none` when `hasMatch()` is false, otherwise the start
offset of the leftmost match and `captured(0)`. -/
def reMatch : QString → Option (Nat × QString)
  | [] => none
  | c :: t =>
    match matchHere (c :: t) with
    | some m => some (0, m)
    | none => (reMatch t).map (fun p => (p.1 + 1, p.2))

/-! ## `QString::number(captured.toDouble(), 'g', 10)` -/

/-- Number of binary digits of `n`, with `fuel` bounding the recursion. -/
def bitLenAux : Nat → Nat → Nat
  | 0, _ => 0
  | fuel + 1, n => if n = 0 then 0 else bitLenAux fuel (n / 2) + 1

/-- Number of binary digits of `n` (`0` for `0`). -/
def bitLen (n : Nat) : Nat := bitLenAux n n

/-- Number of decimal digits of `n`, with `fuel` bounding the recursion. -/
def decLenAux : Nat → Nat → Nat
  | 0, _ => 0
  | fuel + 1, n => if n = 0 then 0 else decLenAux fuel (n / 10) + 1

/-- Number of decimal digits of `n` (`0` for `0`). -/
def decLen (n : Nat) : Nat := decLenAux n n

/-- The fraction `num / den` divided by `b ^ t`, as a numerator and a denominator. -/
def scaleBy (b : Nat) (num den : Nat) (t : Int) : Nat × Nat :=
  if 0 ≤ t then (num, den * b ^ t.toNat) else (num * b ^ (-t).toNat, den)

/-- Value of a decimal digit character. -/
def digitVal (c : Char) : Nat := c.toNat - 48

/-- Value of a string of decimal digits. -/
def digitsVal (ds : QString) : Nat := ds.foldl (fun a c => 10 * a + digitVal c) 0

/-- An IEEE-754 binary64 value: `mant * 2 ^ exp` with a sign, or an infinity. -/
inductive Double where
  | finite (neg : Bool) (mant : Nat) (exp : Int)
  | inf (neg : Bool)
  deriving DecidableEq, Repr

/-- The binary64 nearest to `num / den` (ties to even), subnormals and overflow included.
A result that rounds to zero is `+0.0`. -/
def roundToDouble (neg : Bool) (num den : Nat) : Double :=
  if num = 0 then Double.finite neg 0 0
  else
    let d : Int := (bitLen num : Int) - (bitLen den : Int)
    let p := scaleBy 2 num den d
    let l : Int := if p.2 ≤ p.1 then d else d - 1
    let e : Int := max (l - 52) (-1074)
    let q := scaleBy 2 num den e
    let m0 := q.1 / q.2
    let r := q.1 % q.2
    let m := if q.2 < 2 * r ∨ (2 * r = q.2 ∧ m0 % 2 = 1) then m0 + 1 else m0
    if m = 0 then Double.finite false 0 0
    else if 0 ≤ e ∧ 2 ^ 1024 ≤ m * 2 ^ e.toNat then Double.inf neg
    else Double.finite neg m e

/-- Qt's `captured.toDouble()` for a text captured by the pattern: sign, integer digits and an
optional fraction. -/
def toDouble (s : QString) : Double :=
  let neg : Bool := match s with
    | '-' :: _ => true
    | _ => false
  let body : QString := match s with
    | '-' :: t => t
    | _ => s
  let ip := body.takeWhile isDigit
  let fp : QString := match body.dropWhile isDigit with
    | '.' :: t => t.takeWhile isDigit
    | _ => []
  roundToDouble neg (digitsVal (ip ++ fp)) (10 ^ fp.length)

/-- Exponent suffix of the `e` form in the C locale: sign and at least two digits. -/
def expSuffix (x : Int) : QString :=
  let ds := Nat.toDigits 10 x.natAbs
  'e' :: (if x < 0 then '-' else '+') :: (if ds.length < 2 then '0' :: ds else ds)

/-- Drop the trailing zeros of a digit string. -/
def stripZeros (ds : QString) : QString := (ds.reverse.dropWhile (· = '0')).reverse

/-- The `'g'` rendering with precision 10 of the positive fraction `p / q`: ten significant
digits (a tie in the eleventh digit rounds up, as in the digit generator Qt bundles), trailing
zeros removed, `e` form when the decimal exponent is below `-4` or at least `10`. -/
def formatG10 (p q : Nat) : QString :=
  let x0 : Int :=
    if q ≤ p then (decLen (p / q) : Int) - 1
    else
      let k : Nat := decLen q - decLen p
      if q ≤ p * 10 ^ k then - (k : Int) else - (k : Int) - 1
  let s := scaleBy 10 p q (x0 - 9)
  let d0 := (2 * s.1 + s.2) / (2 * s.2)
  let x : Int := if d0 = 10 ^ 10 then x0 + 1 else x0
  let d : Nat := if d0 = 10 ^ 10 then 10 ^ 9 else d0
  let ds := stripZeros (Nat.toDigits 10 d)
  if x < -4 ∨ 10 ≤ x then
    (match ds with
      | [] => []
      | [c] => [c]
      | c :: t => c :: '.' :: t) ++ expSuffix x
  else if 0 ≤ x then
    let n := x.toNat + 1
    let padded := ds ++ List.replicate (n - ds.length) '0'
    let frac := padded.drop n
    padded.take n ++ (if frac = [] then [] else '.' :: frac)
  else
    '0' :: '.' :: (List.replicate ((-x).toNat - 1) '0' ++ ds)

/-- Qt's `QString::number(d, 'g', 10)`. -/
def number (d : Double) : QString :=
  match d with
  | Double.inf neg => (if neg then ['-'] else []) ++ ['i', 'n', 'f']
  | Double.finite neg m e =>
    (if neg then ['-'] else []) ++
      (if m = 0 then ['0']
       else if 0 ≤ e then formatG10 (m * 2 ^ e.toNat) 1 else formatG10 m (2 ^ (-e).toNat))

/-- Qt's `QString::number(captured.toDouble(), 'g', 10)` on a text captured by the pattern. -/
def numberG10 (captured : QString) : QString := number (toDouble captured)

/-! ## The window object -/

/-- The eight value labels of the form, and the three actions the slots enable or disable. -/
structure Ui where
  PowerStep_value : QString
  ErrorBuf_value : QString
  Mains_input_value : QString
  AD_Mains_input_value : QString
  ADC_Mains_input_value_value : QString
  Current_value : QString
  ADC_current_value : QString
  Power_value : QString
  actionConnect : Bool
  actionDisconnect : Bool
  actionConfigure : Bool
  deriving DecidableEq, Repr

/-- What the slots use of the `QSerialPort`: whether it is open, its port name and the text
of its last error. -/
structure QSerialPort where
  isOpen : Bool
  portName : QString
  errorString : QString
  deriving DecidableEq, Repr

/-- A modal message box shown to the user. -/
inductive MessageBox where
  | critical (title text : QString)
  | warning (title text : QString)
  deriving DecidableEq, Repr

/-- The values of `QSerialPort::SerialPortError`. -/
inductive SerialPortError where
  | NoError | DeviceNotFoundError | PermissionError | OpenError | WriteError | ReadError
  | ResourceError | UnsupportedOperationError | UnknownError | TimeoutError | NotOpenError
  deriving DecidableEq, Repr

/-- The members of `MainWindow` (`mainwindow.h`). `m_timer` is the single-shot write timer:
`none` when inactive, `some r` when active with `r` milliseconds left. `m_bytesToWrite` is the
`qint64` counter, held as an integer: it moves by the sizes of byte arrays held in memory, so
it stays far inside the 64-bit range. `boxes` lists the message boxes shown so far. -/
structure MainWindow where
  m_ui : Ui
  m_status : QString
  m_bytesToWrite : Int
  m_timer : Option Nat
  m_serial : QSerialPort
  received_data : QString
  boxes : List MessageBox
  deriving DecidableEq, Repr

/-- The constant `kWriteTimeout`, in seconds. -/
def kWriteTimeout : Nat := 5

/-- The window after its constructor: counter `0`, empty line buffer, timer created single-shot
and not started, port closed, connect and configure enabled, disconnect disabled. The texts
of the labels come from the form and are taken as given. -/
def MainWindow.init (PowerStep ErrorBuf Mains AD_Mains ADC_Mains Current ADC_current Power :
    QString) (portName : QString) : MainWindow :=
  { m_ui :=
      { PowerStep_value := PowerStep, ErrorBuf_value := ErrorBuf, Mains_input_value := Mains,
        AD_Mains_input_value := AD_Mains, ADC_Mains_input_value_value := ADC_Mains,
        Current_value := Current, ADC_current_value := ADC_current, Power_value := Power,
        actionConnect := true, actionDisconnect := false, actionConfigure := true },
    m_status := [],
    m_bytesToWrite := 0,
    m_timer := none,
    m_serial := { isOpen := false, portName := portName, errorString := [] },
    received_data := [],
    boxes := [] }

/-- The function `updateSerialValue`: the new text of `label`. When the pattern matches
somewhere in `received_data` the label gets the rendering `num` of the captured text, otherwise
it keeps its text. `num` stands for `QString::number(captured.toDouble(), 'g', 10)`. -/
def updateSerialValue (num : QString → QString) (received_data : QString) (label : QString) :
    QString :=
  match reMatch received_data with
  | some m => num m.2
  | none => label

/-- The method `MainWindow::showStatusMessage`. -/
def showStatusMessage (w : MainWindow) (message : QString) : MainWindow :=
  { w with m_status := message }

/-- The method `MainWindow::showWriteError`: a warning box titled `Warning`. -/
def showWriteError (w : MainWindow) (message : QString) : MainWindow :=
  { w with boxes := w.boxes ++ [MessageBox.warning "Warning".toList message] }

/-- The fields of `SettingsDialog::Settings` that `openSerialPort` shows; the numeric port
parameters are handed to the port unchanged and play no part here. -/
structure Settings where
  name : QString
  stringBaudRate : QString
  stringDataBits : QString
  stringParity : QString
  stringStopBits : QString
  stringFlowControl : QString
  deriving DecidableEq, Repr

/-- The slot `MainWindow::openSerialPort`; `opened` is what
`m_serial->open(QIODevice::ReadWrite)` returned. -/
def openSerialPort (w : MainWindow) (p : Settings) (opened : Bool) : MainWindow :=
  let w := { w with m_serial := { w.m_serial with portName := p.name } }
  if opened then
    let w := { w with m_serial := { w.m_serial with isOpen := true } }
    let w := { w with m_ui := { w.m_ui with actionConnect := false } }
    let w := { w with m_ui := { w.m_ui with actionDisconnect := true } }
    let w := { w with m_ui := { w.m_ui with actionConfigure := false } }
    showStatusMessage w ("Connected to ".toList ++ p.name ++ " : ".toList ++ p.stringBaudRate ++
      ", ".toList ++ p.stringDataBits ++ ", ".toList ++ p.stringParity ++ ", ".toList ++
      p.stringStopBits ++ ", ".toList ++ p.stringFlowControl)
  else
    let w := { w with boxes := w.boxes ++
      [MessageBox.critical "Error".toList w.m_serial.errorString] }
    showStatusMessage w "Open error".toList

/-- The slot `MainWindow::closeSerialPort`. -/
def closeSerialPort (w : MainWindow) : MainWindow :=
  let w := if w.m_serial.isOpen then { w with m_serial := { w.m_serial with isOpen := false } }
    else w
  let w := { w with m_ui := { w.m_ui with actionConnect := true } }
  let w := { w with m_ui := { w.m_ui with actionDisconnect := false } }
  let w := { w with m_ui := { w.m_ui with actionConfigure := true } }
  showStatusMessage w "Disconnected".toList

/-- The text of the write-failure warning. -/
def writeFailedText (w : MainWindow) : QString :=
  "Failed to write all data to port ".toList ++ w.m_serial.portName ++ ".\nError: ".toList ++
    w.m_serial.errorString

/-- The text of the write-timeout warning. -/
def writeTimeoutText (w : MainWindow) : QString :=
  "Write operation timed out for port ".toList ++ w.m_serial.portName ++
    ".\nError: ".toList ++ w.m_serial.errorString

/-- The slot `MainWindow::writeData`; `written` is what `m_serial->write(data)` returned. -/
def writeData (w : MainWindow) (data : QByteArray) (written : Int) : MainWindow :=
  if written = (data.length : Int) then
    let w := { w with m_bytesToWrite := w.m_bytesToWrite + written }
    { w with m_timer := some (kWriteTimeout * 1000) }
  else
    showWriteError w (writeFailedText w)

/-- The slot `MainWindow::readData` from the point where the text `data` is appended to
`received_data`; the decoding of the bytes of `m_serial->readAll()` that `+=` performs first
is `fromUtf8`, and the slot on the raw bytes is `readDataBytes`. `num` stands for
`QString::number(captured.toDouble(), 'g', 10)`; the `qInfo()` trace is left out. -/
def readData (num : QString → QString) (w : MainWindow) (data : QString) : MainWindow :=
  let w := { w with received_data := w.received_data ++ data }
  if '\n' ∈ w.received_data then
    let w :=
      if ':' ∈ w.received_data then
        let parameter := split ':' w.received_data
        let p0 := parameter.headD []
        let rd := w.received_data
        let ui := w.m_ui
        let ui := if p0 = "PowerStep".toList then
          { ui with PowerStep_value := updateSerialValue num rd ui.PowerStep_value } else ui
        let ui := if p0 = "ErrorBuf".toList then
          { ui with ErrorBuf_value := updateSerialValue num rd ui.ErrorBuf_value } else ui
        let ui := if p0 = "Mains input".toList then
          { ui with Mains_input_value := updateSerialValue num rd ui.Mains_input_value } else ui
        let ui := if p0 = "AD Mains input".toList then
          { ui with AD_Mains_input_value := updateSerialValue num rd ui.AD_Mains_input_value }
          else ui
        let ui := if p0 = "ADC Mains input value".toList then
          { ui with ADC_Mains_input_value_value :=
              updateSerialValue num rd ui.ADC_Mains_input_value_value } else ui
        let ui := if p0 = "Current".toList then
          { ui with Current_value := updateSerialValue num rd ui.Current_value } else ui
        let ui := if p0 = "ADC Current".toList then
          { ui with ADC_current_value := updateSerialValue num rd ui.ADC_current_value } else ui
        let ui := if p0 = "Power".toList then
          { ui with Power_value := updateSerialValue num rd ui.Power_value } else ui
        { w with m_ui := ui }
      else w
    { w with received_data := [] }
  else w

/-- The slot `MainWindow::handleError`. -/
def handleError (w : MainWindow) (error : SerialPortError) : MainWindow :=
  if error = SerialPortError.ResourceError then
    let w := { w with boxes := w.boxes ++
      [MessageBox.critical "Critical Error".toList w.m_serial.errorString] }
    closeSerialPort w
  else w

/-- The slot `MainWindow::handleBytesWritten`. -/
def handleBytesWritten (w : MainWindow) (bytes : Int) : MainWindow :=
  let w := { w with m_bytesToWrite := w.m_bytesToWrite - bytes }
  if w.m_bytesToWrite = 0 then { w with m_timer := none } else w

/-- The slot `MainWindow::handleWriteTimeout`. -/
def handleWriteTimeout (w : MainWindow) : MainWindow :=
  showWriteError w (writeTimeoutText w)

/-- The slot `MainWindow::ClearSerialValue`. -/
def ClearSerialValue (w : MainWindow) : MainWindow :=
  { w with m_ui :=
      { w.m_ui with
        PowerStep_value := ['0'], ErrorBuf_value := ['0'], Mains_input_value := ['0'],
        AD_Mains_input_value := ['0'], ADC_Mains_input_value_value := ['0'],
        Current_value := ['0'], ADC_current_value := ['0'], Power_value := ['0'] } }

/-- Passage of `ms` milliseconds for the single-shot timer, whose `timeout` signal is connected
to `handleWriteTimeout`: an active timer whose remaining time is used up becomes inactive and
the slot runs once; otherwise the remaining time shrinks. An inactive timer never fires. -/
def elapse (w : MainWindow) (ms : Nat) : MainWindow :=
  match w.m_timer with
  | none => w
  | some r =>
    if r ≤ ms then handleWriteTimeout { w with m_timer := none }
    else { w with m_timer := some (r - ms) }

/-! ## Traces of the write tracker -/

/-- The events that drive the write tracker. -/
inductive Event where
  | writeData (data : QByteArray) (written : Int)
  | handleBytesWritten (bytes : Int)
  | elapse (ms : Nat)
  deriving DecidableEq, Repr

/-- One event applied to the window. -/
def step (w : MainWindow) : Event → MainWindow
  | Event.writeData data written => writeData w data written
  | Event.handleBytesWritten bytes => handleBytesWritten w bytes
  | Event.elapse ms => elapse w ms

/-- A sequence of events applied in order. -/
def run (w : MainWindow) (es : List Event) : MainWindow := es.foldl step w

/-! ## The eight fields -/

/-- The eight recognised fields. -/
inductive Field where
  | PowerStep | ErrorBuf | MainsInput | ADMainsInput | ADCMainsInputValue | Current
  | ADCCurrent | Power
  deriving DecidableEq, Repr

/-- The name that `readData` compares `parameter[0]` with for each field. -/
def Field.name : Field → QString
  | Field.PowerStep => "PowerStep".toList
  | Field.ErrorBuf => "ErrorBuf".toList
  | Field.MainsInput => "Mains input".toList
  | Field.ADMainsInput => "AD Mains input".toList
  | Field.ADCMainsInputValue => "ADC Mains input value".toList
  | Field.Current => "Current".toList
  | Field.ADCCurrent => "ADC Current".toList
  | Field.Power => "Power".toList

/-- The label (sink) that `readData` passes to `updateSerialValue` for each field. -/
def Ui.sink (ui : Ui) : Field → QString
  | Field.PowerStep => ui.PowerStep_value
  | Field.ErrorBuf => ui.ErrorBuf_value
  | Field.MainsInput => ui.Mains_input_value
  | Field.ADMainsInput => ui.AD_Mains_input_value
  | Field.ADCMainsInputValue => ui.ADC_Mains_input_value_value
  | Field.Current => ui.Current_value
  | Field.ADCCurrent => ui.ADC_current_value
  | Field.Power => ui.Power_value

/-- A window as constructed, with every label showing `0`. -/
def w0 : MainWindow :=
  MainWindow.init ['0'] ['0'] ['0'] ['0'] ['0'] ['0'] ['0'] ['0'] "COM1".toList

/-! ## The first segment and the payload of a line -/

/-- The text before the first `:` of a line (the whole line when it has none). -/
def beforeColon : QString → QString
  | [] => []
  | c :: t => if c = ':' then [] else c :: beforeColon t

/-- The payload of a line: the text after its first `:` (empty when it has none). -/
def afterColon : QString → QString
  | [] => []
  | c :: t => if c = ':' then t else afterColon t

/-- The labels with the sink of field `f` set to `v`. -/
def Ui.set (ui : Ui) : Field → QString → Ui
  | Field.PowerStep, v => { ui with PowerStep_value := v }
  | Field.ErrorBuf, v => { ui with ErrorBuf_value := v }
  | Field.MainsInput, v => { ui with Mains_input_value := v }
  | Field.ADMainsInput, v => { ui with AD_Mains_input_value := v }
  | Field.ADCMainsInputValue, v => { ui with ADC_Mains_input_value_value := v }
  | Field.Current, v => { ui with Current_value := v }
  | Field.ADCCurrent, v => { ui with ADC_current_value := v }
  | Field.Power, v => { ui with Power_value := v }

/-- One of the eight tests of `readData`: `if (parameter[0] == name) updateSerialValue(...)`. -/
def updField (num : QString → QString) (p0 rd : QString) (f : Field) (ui : Ui) : Ui :=
  if p0 = f.name then ui.set f (updateSerialValue num rd (ui.sink f)) else ui

/-! ## Conditions on traces -/

/-- Every confirmation in the trace reports a count between `0` and the value the counter has
when the confirmation arrives. -/
def confirmsWithinPending : MainWindow → List Event → Bool
  | _, [] => true
  | w, e :: es =>
    (match e with
      | Event.handleBytesWritten n => decide (0 ≤ n ∧ n ≤ w.m_bytesToWrite)
      | _ => true) && confirmsWithinPending (step w e) es

/-- No write in the trace has empty data. -/
def writesNonEmpty (es : List Event) : Bool :=
  es.all (fun e =>
    match e with
    | Event.writeData data _ => !data.isEmpty
    | _ => true)

/-- The settings used in the examples. -/
def com1 : Settings :=
  { name := "COM1".toList, stringBaudRate := "9600".toList, stringDataBits := "8".toList,
    stringParity := "None".toList, stringStopBits := "1".toList,
    stringFlowControl := "None".toList }

/-- The bytes of `hello`. -/
def hello : QByteArray := [104, 101, 108, 108, 111]

/-! ## The bytes read from the port -/

/-- Whether `b` is a UTF-8 continuation byte (`10xxxxxx`). -/
def isCont (b : UInt8) : Bool := decide (0x80 ≤ b.toNat ∧ b.toNat < 0xC0)

/-- One step of UTF-8 decoding at the head of a non-empty byte string starting with `b0`: the
decoded code point and the number of bytes it takes, or `none` when the bytes at the head are
not a well-formed sequence (stray continuation byte, overlong form, surrogate, value above
`0x10FFFF`, or sequence cut short). -/
def decodeOne (b0 : UInt8) (rest : QByteArray) : Option (Nat × Nat) :=
  let n0 := b0.toNat
  if n0 < 0x80 then some (n0, 1)
  else if 0xC2 ≤ n0 ∧ n0 < 0xE0 then
    match rest with
    | b1 :: _ =>
      if isCont b1 then some ((n0 - 0xC0) * 64 + (b1.toNat - 0x80), 2) else none
    | _ => none
  else if 0xE0 ≤ n0 ∧ n0 < 0xF0 then
    match rest with
    | b1 :: b2 :: _ =>
      let cp := (n0 - 0xE0) * 4096 + (b1.toNat - 0x80) * 64 + (b2.toNat - 0x80)
      if isCont b1 ∧ isCont b2 ∧ 0x800 ≤ cp ∧ ¬ (0xD800 ≤ cp ∧ cp < 0xE000) then
        some (cp, 3)
      else none
    | _ => none
  else if 0xF0 ≤ n0 ∧ n0 < 0xF5 then
    match rest with
    | b1 :: b2 :: b3 :: _ =>
      let cp := (n0 - 0xF0) * 262144 + (b1.toNat - 0x80) * 4096 + (b2.toNat - 0x80) * 64 +
        (b3.toNat - 0x80)
      if isCont b1 ∧ isCont b2 ∧ isCont b3 ∧ 0x10000 ≤ cp ∧ cp < 0x110000 then
        some (cp, 4)
      else none
    | _ => none
  else none

/-- UTF-8 decoding with `fuel` bounding the recursion: a well-formed sequence gives its
character, a byte that starts no well-formed sequence gives U+FFFD and decoding resumes at the
next byte. -/
def fromUtf8Aux : Nat → QByteArray → QString
  | 0, _ => []
  | _ + 1, [] => []
  | fuel + 1, b0 :: rest =>
    match decodeOne b0 rest with
    | some (cp, n) => Char.ofNat cp :: fromUtf8Aux fuel (rest.drop (n - 1))
    | none => Char.ofNat 0xFFFD :: fromUtf8Aux fuel rest

/-- Qt's `QString::fromUtf8`, the conversion that `received_data += data` applies to the
`QByteArray` read from the port. A character outside the basic plane is one element here
(two UTF-16 units in a `QString`). -/
def fromUtf8 (data : QByteArray) : QString := fromUtf8Aux data.length data

/-- The slot `MainWindow::readData` on the raw bytes `data` returned by `m_serial->readAll()`:
`received_data += data` decodes them as UTF-8 and appends the text; the rest of the slot is
`readData` on that text. -/
def readDataBytes (num : QString → QString) (w : MainWindow) (data : QByteArray) : MainWindow :=
  readData num w (fromUtf8 data)

/-- The text of an all-ASCII byte string. -/
def asciiText (data : QByteArray) : QString := data.map (fun b => Char.ofNat b.toNat)

/-- A connected window with work pending: the port was opened, five bytes were written and
accepted, and the text `abc` was received. -/
def wBusy : MainWindow :=
  readData numberG10 (writeData (openSerialPort w0 com1 true) hello 5) "abc".toList

/-! ## Lemmas on the text operations -/

theorem split_headD (s : QString) : (split ':' s).headD [] = beforeColon s := by
  induction s with
  | nil => rfl
  | cons c t ih =>
    by_cases h : c = ':'
    · simp [split, beforeColon, h]
    · simp only [split, beforeColon, h, if_false]
      cases hs : split ':' t with
      | nil => rw [hs] at ih; rw [← ih]; rfl
      | cons a r => rw [hs] at ih; rw [← ih]; rfl

theorem beforeColon_append (n rest : QString) (h : ':' ∉ n) :
    beforeColon (n ++ ':' :: rest) = n := by
  induction n with
  | nil => simp [beforeColon]
  | cons c t ih =>
    have hc : c ≠ ':' := fun e => h (by simp [e])
    have ht : ':' ∉ t := fun e => h (by simp [e])
    show beforeColon (c :: (t ++ ':' :: rest)) = c :: t
    simp only [beforeColon, hc, if_false, ih ht]

theorem afterColon_append (n rest : QString) (h : ':' ∉ n) :
    afterColon (n ++ ':' :: rest) = rest := by
  induction n with
  | nil => simp [afterColon]
  | cons c t ih =>
    have hc : c ≠ ':' := fun e => h (by simp [e])
    have ht : ':' ∉ t := fun e => h (by simp [e])
    show afterColon (c :: (t ++ ':' :: rest)) = rest
    simp only [afterColon, hc, if_false, ih ht]

theorem eq_before_colon_after (s : QString) (h : ':' ∈ s) :
    s = beforeColon s ++ ':' :: afterColon s := by
  induction s with
  | nil => simp at h
  | cons c t ih =>
    by_cases hc : c = ':'
    · simp [beforeColon, afterColon, hc]
    · have ht : ':' ∈ t := by
        rcases List.mem_cons.1 h with e | e
        · exact absurd e.symm hc
        · exact e
      simp only [beforeColon, afterColon, hc, if_false, List.cons_append]
      rw [← ih ht]

theorem colon_not_mem_beforeColon (s : QString) : ':' ∉ beforeColon s := by
  induction s with
  | nil => simp [beforeColon]
  | cons c t ih =>
    by_cases hc : c = ':'
    · simp [beforeColon, hc]
    · simp only [beforeColon, hc, if_false, List.mem_cons, not_or]
      exact ⟨fun e => hc e.symm, ih⟩

theorem matchHere_none_of_head (c : Char) (t : QString) (hd : isDigit c = false)
    (hm : c ≠ '-') : matchHere (c :: t) = none := by
  have h2 : List.takeWhile isDigit (c :: t) = [] := by simp [List.takeWhile, hd]
  unfold matchHere
  split
  · rename_i heq
    simp only [List.cons.injEq] at heq
    exact absurd heq.1 hm
  · unfold matchUnsigned
    simp only [h2, if_true]

theorem reMatch_skip (n rest : QString)
    (h : ∀ c ∈ n, isDigit c = false ∧ c ≠ '-') :
    reMatch (n ++ rest) = (reMatch rest).map (fun p => (p.1 + n.length, p.2)) := by
  induction n with
  | nil =>
    simp only [List.nil_append, List.length_nil, Nat.add_zero]
    cases reMatch rest <;> rfl
  | cons c t ih =>
    have hc := h c (by simp)
    have ht : ∀ c ∈ t, isDigit c = false ∧ c ≠ '-' := fun x hx => h x (by simp [hx])
    rw [List.cons_append, reMatch, matchHere_none_of_head c _ hc.1 hc.2, ih ht]
    cases reMatch rest with
    | none => rfl
    | some p => simp [Nat.add_assoc]

theorem reMatch_leftmost (s : QString) (i : Nat) (m : QString)
    (h : reMatch s = some (i, m)) :
    matchHere (s.drop i) = some m ∧ ∀ j, j < i → matchHere (s.drop j) = none := by
  induction s generalizing i with
  | nil => simp [reMatch] at h
  | cons c t ih =>
    rw [reMatch] at h
    cases hm : matchHere (c :: t) with
    | some x =>
      rw [hm] at h
      simp only [Option.some.injEq, Prod.mk.injEq] at h
      obtain ⟨rfl, rfl⟩ := h
      exact ⟨by simpa using hm, fun j hj => absurd hj (Nat.not_lt_zero j)⟩
    | none =>
      rw [hm] at h
      cases hr : reMatch t with
      | none => rw [hr] at h; simp at h
      | some p =>
        rw [hr] at h
        simp only [Option.map_some', Option.some.injEq, Prod.mk.injEq] at h
        obtain ⟨rfl, rfl⟩ := h
        obtain ⟨h1, h2⟩ := ih p.1 hr
        refine ⟨by simpa using h1, fun j hj => ?_⟩
        cases j with
        | zero => simpa using hm
        | succ k => simpa using h2 k (by omega)

theorem Field.name_injective (f g : Field) (h : f.name = g.name) : f = g := by
  cases f <;> cases g <;> first | rfl | (exact absurd h (by decide))

theorem sink_set (ui : Ui) (f g : Field) (v : QString) :
    (ui.set f v).sink g = if g = f then v else ui.sink g := by
  cases f <;> cases g <;> rfl

theorem sink_updField (num : QString → QString) (p0 rd : QString) (f g : Field) (ui : Ui) :
    (updField num p0 rd f ui).sink g =
      if p0 = f.name ∧ g = f then updateSerialValue num rd (ui.sink f) else ui.sink g := by
  unfold updField
  by_cases h : p0 = f.name
  · by_cases h2 : g = f
    · simp only [h, h2, if_true, sink_set, and_self]
    · simp only [h, h2, if_true, if_false, sink_set, and_false]
  · simp only [h, if_false, false_and]

theorem readData_eq (num : QString → QString) (w : MainWindow) (data : QString) :
    readData num w data =
      if '\n' ∈ w.received_data ++ data then
        { w with
          m_ui :=
            if ':' ∈ w.received_data ++ data then
              let p0 := (split ':' (w.received_data ++ data)).headD []
              let rd := w.received_data ++ data
              updField num p0 rd Field.Power (updField num p0 rd Field.ADCCurrent
                (updField num p0 rd Field.Current (updField num p0 rd Field.ADCMainsInputValue
                  (updField num p0 rd Field.ADMainsInput (updField num p0 rd Field.MainsInput
                    (updField num p0 rd Field.ErrorBuf
                      (updField num p0 rd Field.PowerStep w.m_ui)))))))
            else w.m_ui,
          received_data := [] }
      else { w with received_data := w.received_data ++ data } := by
  unfold readData
  by_cases h : '\n' ∈ w.received_data ++ data
  · by_cases h2 : ':' ∈ w.received_data ++ data
    · rw [if_pos h, if_pos h, if_pos h2, if_pos h2]
      rfl
    · rw [if_pos h, if_pos h, if_neg h2, if_neg h2]
  · rw [if_neg h, if_neg h]

theorem readData_sink (num : QString → QString) (w : MainWindow) (data : QString) (f : Field) :
    (readData num w data).m_ui.sink f =
      if '\n' ∈ w.received_data ++ data ∧ ':' ∈ w.received_data ++ data ∧
          beforeColon (w.received_data ++ data) = f.name
      then updateSerialValue num (w.received_data ++ data) (w.m_ui.sink f)
      else w.m_ui.sink f := by
  rw [readData_eq]
  by_cases h : '\n' ∈ w.received_data ++ data
  · by_cases h2 : ':' ∈ w.received_data ++ data
    · simp only [h, h2, if_true, true_and, split_headD]
      by_cases h3 : beforeColon (w.received_data ++ data) = f.name
      · rw [h3]
        cases f <;> simp [sink_updField, Field.name]
      · simp only [sink_updField, h3, if_false]
        cases f <;> simp [sink_updField] <;> intro h4 <;> exact absurd h4 h3
    · simp only [h, h2, if_true, if_false, false_and, and_false]
  · simp only [h, if_false, false_and]


theorem name_no_colon (f : Field) : ':' ∉ f.name := by
  cases f <;> decide

theorem name_no_digit_no_minus (f : Field) :
    ∀ c ∈ f.name ++ [':'], isDigit c = false ∧ c ≠ '-' := by
  cases f <;> decide

theorem reMatch_name_colon (f : Field) (rest : QString) :
    reMatch (f.name ++ ':' :: rest) =
      (reMatch rest).map (fun p => (p.1 + (f.name.length + 1), p.2)) := by
  have h := reMatch_skip (f.name ++ [':']) rest (name_no_digit_no_minus f)
  simpa using h

theorem readData_m_ui_of_no_newline (num : QString → QString) (w : MainWindow)
    (data : QString) (h : '\n' ∉ w.received_data ++ data) :
    readData num w data = { w with received_data := w.received_data ++ data } := by
  rw [readData_eq, if_neg h]

/-! ## The line decoder -/

/-- C1: for each of the eight field names `N`, when the accumulated buffer is
`N ++ ":" ++ rest`, contains a newline and the pattern matches somewhere in it, `readData` sets
the sink of `N` to the rendering of the captured text of the leftmost match in the whole
accumulated buffer (no earlier offset matches) and leaves the other seven sinks as they were.
This holds for every rendering function `num`, so for `numberG10`; with `numberG10`, from an
empty buffer `PowerStep:12.5\n` sets the PowerStep sink to `12.5` and `Current:-3\n` sets the
Current sink to `-3`. -/
theorem C1_readData_sets_named_sink :
    (∀ (num : QString → QString) (w : MainWindow) (data rest : QString) (f : Field)
        (i : Nat) (m : QString),
        w.received_data ++ data = f.name ++ ':' :: rest →
        '\n' ∈ w.received_data ++ data →
        reMatch (w.received_data ++ data) = some (i, m) →
        (readData num w data).m_ui.sink f = num m ∧
        (∀ g, g ≠ f → (readData num w data).m_ui.sink g = w.m_ui.sink g) ∧
        matchHere ((w.received_data ++ data).drop i) = some m ∧
        (∀ j, j < i → matchHere ((w.received_data ++ data).drop j) = none)) ∧
    (∀ w : MainWindow, w.received_data = [] →
        (readData numberG10 w "PowerStep:12.5\n".toList).m_ui.sink Field.PowerStep =
          "12.5".toList ∧
        ∀ g, g ≠ Field.PowerStep →
          (readData numberG10 w "PowerStep:12.5\n".toList).m_ui.sink g = w.m_ui.sink g) ∧
    (∀ w : MainWindow, w.received_data = [] →
        (readData numberG10 w "Current:-3\n".toList).m_ui.sink Field.Current = "-3".toList ∧
        ∀ g, g ≠ Field.Current →
          (readData numberG10 w "Current:-3\n".toList).m_ui.sink g = w.m_ui.sink g) := by
  have gen : ∀ (num : QString → QString) (w : MainWindow) (data rest : QString) (f : Field)
      (i : Nat) (m : QString),
      w.received_data ++ data = f.name ++ ':' :: rest →
      '\n' ∈ w.received_data ++ data →
      reMatch (w.received_data ++ data) = some (i, m) →
      (readData num w data).m_ui.sink f = num m ∧
      (∀ g, g ≠ f → (readData num w data).m_ui.sink g = w.m_ui.sink g) ∧
      matchHere ((w.received_data ++ data).drop i) = some m ∧
      (∀ j, j < i → matchHere ((w.received_data ++ data).drop j) = none) := by
    intro num w data rest f i m hbuf hnl hm
    have hcol : ':' ∈ w.received_data ++ data := by rw [hbuf]; simp
    have hb : beforeColon (w.received_data ++ data) = f.name := by
      rw [hbuf]; exact beforeColon_append _ _ (name_no_colon f)
    refine ⟨?_, ?_, (reMatch_leftmost _ i m hm).1, (reMatch_leftmost _ i m hm).2⟩
    · rw [readData_sink, if_pos ⟨hnl, hcol, hb⟩]
      simp only [updateSerialValue, hm]
    · intro g hg
      rw [readData_sink, if_neg]
      rintro ⟨_, _, h3⟩
      exact hg (Field.name_injective g f (h3.symm.trans hb))
  refine ⟨gen, ?_, ?_⟩
  · intro w hw
    have h := gen numberG10 w "PowerStep:12.5\n".toList "12.5\n".toList Field.PowerStep 10
      "12.5".toList (by rw [hw]; rfl) (by rw [hw]; decide) (by rw [hw]; decide)
    exact ⟨h.1.trans (by decide), h.2.1⟩
  · intro w hw
    have h := gen numberG10 w "Current:-3\n".toList "-3\n".toList Field.Current 8
      "-3".toList (by rw [hw]; rfl) (by rw [hw]; decide) (by rw [hw]; decide)
    exact ⟨h.1.trans (by decide), h.2.1⟩

theorem C1_readData_sets_named_sink_witness :
    (readData numberG10 w0 "ADC Current:x=0.50 A\n".toList).m_ui.sink Field.ADCCurrent =
        "0.5".toList ∧
      (readData numberG10 w0 "PowerStep:12.5\n".toList).m_ui.sink Field.PowerStep =
        "12.5".toList :=
  ⟨(C1_readData_sets_named_sink.1 numberG10 w0 "ADC Current:x=0.50 A\n".toList
      "x=0.50 A\n".toList Field.ADCCurrent 14 "0.50".toList (by decide) (by decide)
      (by decide)).1.trans (by decide),
    (C1_readData_sets_named_sink.2.1 w0 (by decide)).1⟩


/-- C2: `readData` changes a sink only if the accumulated buffer contains a `:` (and a newline)
and the text before its first `:` is exactly one of the eight field names; when the accumulated
buffer has no `:` or its first segment is not one of the eight names, all eight sinks keep
their values, as for `Power9\n`, `Unknown:9\n` and `powerstep:1\n`. -/
theorem C2_readData_ignores_unrecognised :
    (∀ (num : QString → QString) (w : MainWindow) (data : QString) (f : Field),
        (readData num w data).m_ui.sink f ≠ w.m_ui.sink f →
        '\n' ∈ w.received_data ++ data ∧ ':' ∈ w.received_data ++ data ∧
          beforeColon (w.received_data ++ data) = f.name) ∧
    (∀ (num : QString → QString) (w : MainWindow) (data : QString),
        (':' ∉ w.received_data ++ data ∨
          ∀ f : Field, beforeColon (w.received_data ++ data) ≠ f.name) →
        ∀ g, (readData num w data).m_ui.sink g = w.m_ui.sink g) ∧
    (∀ (num : QString → QString) (w : MainWindow) (g : Field), w.received_data = [] →
        (readData num w "Power9\n".toList).m_ui.sink g = w.m_ui.sink g ∧
        (readData num w "Unknown:9\n".toList).m_ui.sink g = w.m_ui.sink g ∧
        (readData num w "powerstep:1\n".toList).m_ui.sink g = w.m_ui.sink g) := by
  have only_if : ∀ (num : QString → QString) (w : MainWindow) (data : QString) (f : Field),
      (readData num w data).m_ui.sink f ≠ w.m_ui.sink f →
      '\n' ∈ w.received_data ++ data ∧ ':' ∈ w.received_data ++ data ∧
        beforeColon (w.received_data ++ data) = f.name := by
    intro num w data f h
    by_contra hc
    exact h (by rw [readData_sink, if_neg hc])
  have unchanged : ∀ (num : QString → QString) (w : MainWindow) (data : QString),
      (':' ∉ w.received_data ++ data ∨
        ∀ f : Field, beforeColon (w.received_data ++ data) ≠ f.name) →
      ∀ g, (readData num w data).m_ui.sink g = w.m_ui.sink g := by
    intro num w data h g
    by_contra hc
    obtain ⟨_, h2, h3⟩ := only_if num w data g hc
    rcases h with h | h
    · exact h h2
    · exact h g h3
  refine ⟨only_if, unchanged, ?_⟩
  intro num w g hw
  refine ⟨unchanged num w _ (Or.inl ?_) g, unchanged num w _ (Or.inr ?_) g,
    unchanged num w _ (Or.inr ?_) g⟩
  · rw [hw]; decide
  · rw [hw]; intro f; cases f <;> decide
  · rw [hw]; intro f; cases f <;> decide

theorem C2_readData_ignores_unrecognised_witness :
    (∀ g, (readData numberG10 w0 "Voltage:230\n".toList).m_ui.sink g = w0.m_ui.sink g) ∧
      (readData numberG10 w0 "Power9\n".toList).m_ui.sink Field.Power = w0.m_ui.sink Field.Power :=
  ⟨C2_readData_ignores_unrecognised.2.1 numberG10 w0 "Voltage:230\n".toList
      (Or.inr (fun f => by cases f <;> decide)),
    (C2_readData_ignores_unrecognised.2.2 numberG10 w0 Field.Power (by decide)).1⟩

/-- C3 (as the code has it): a call of `readData` whose accumulated buffer contains a newline
treats the whole accumulated buffer as one record and then empties the buffer: at most one sink
changes, namely the one named by the text before the first `:`, and it receives the rendering
of the leftmost match in the whole buffer; text after the first newline is not decoded as a
further line. From an empty buffer the chunk `PowerStep:1\nCurrent:2\n` sets the PowerStep sink
to `1` and leaves the other seven sinks, Current included, as they were. -/
theorem C3_readData_one_record_per_call :
    (∀ (num : QString → QString) (w : MainWindow) (data : QString),
        '\n' ∈ w.received_data ++ data →
        (readData num w data).received_data = [] ∧
        (∀ f g, (readData num w data).m_ui.sink f ≠ w.m_ui.sink f →
          (readData num w data).m_ui.sink g ≠ w.m_ui.sink g → f = g) ∧
        (∀ f, (readData num w data).m_ui.sink f ≠ w.m_ui.sink f →
          beforeColon (w.received_data ++ data) = f.name ∧
          ∃ i m, reMatch (w.received_data ++ data) = some (i, m) ∧
            (readData num w data).m_ui.sink f = num m)) ∧
    (∀ w : MainWindow, w.received_data = [] →
        (readData numberG10 w "PowerStep:1\nCurrent:2\n".toList).m_ui.sink Field.PowerStep =
          "1".toList ∧
        (∀ g, g ≠ Field.PowerStep →
          (readData numberG10 w "PowerStep:1\nCurrent:2\n".toList).m_ui.sink g =
            w.m_ui.sink g) ∧
        (readData numberG10 w "PowerStep:1\nCurrent:2\n".toList).received_data = []) := by
  have changed : ∀ (num : QString → QString) (w : MainWindow) (data : QString) (f : Field),
      (readData num w data).m_ui.sink f ≠ w.m_ui.sink f →
      '\n' ∈ w.received_data ++ data ∧ ':' ∈ w.received_data ++ data ∧
        beforeColon (w.received_data ++ data) = f.name := by
    intro num w data f h
    by_contra hc
    exact h (by rw [readData_sink, if_neg hc])
  constructor
  · intro num w data hnl
    refine ⟨by rw [readData_eq, if_pos hnl], ?_, ?_⟩
    · intro f g hf hg
      exact Field.name_injective f g
        ((changed num w data f hf).2.2.symm.trans (changed num w data g hg).2.2)
    · intro f hf
      have hc := changed num w data f hf
      refine ⟨hc.2.2, ?_⟩
      rw [readData_sink, if_pos hc] at hf ⊢
      unfold updateSerialValue at hf ⊢
      cases hm : reMatch (w.received_data ++ data) with
      | none => rw [hm] at hf; exact absurd rfl hf
      | some p => exact ⟨p.1, p.2, rfl, rfl⟩
  · intro w hw
    have hb : w.received_data ++ "PowerStep:1\nCurrent:2\n".toList =
        "PowerStep:1\nCurrent:2\n".toList := by rw [hw]; rfl
    refine ⟨?_, ?_, ?_⟩
    · rw [readData_sink, hb, if_pos (by decide)]
      unfold updateSerialValue
      rw [show reMatch "PowerStep:1\nCurrent:2\n".toList = some (10, "1".toList) by decide]
      show numberG10 "1".toList = "1".toList
      decide
    · intro g hg
      rw [readData_sink, hb, if_neg]
      rintro ⟨_, _, h3⟩
      exact hg (Field.name_injective g Field.PowerStep (h3.symm.trans (by decide)))
    · rw [readData_eq, hb, if_pos (by decide)]

theorem C3_readData_one_record_per_call_witness :
    (readData numberG10 w0 "PowerStep:1\nCurrent:2\n".toList).received_data = [] ∧
      (readData numberG10 w0 "PowerStep:1\nCurrent:2\n".toList).m_ui.sink Field.Current =
        w0.m_ui.sink Field.Current :=
  ⟨(C3_readData_one_record_per_call.1 numberG10 w0 "PowerStep:1\nCurrent:2\n".toList
      (by decide)).1,
    (C3_readData_one_record_per_call.2 w0 (by decide)).2.1 Field.Current (by decide)⟩

/-- C3 as stated fails: from an empty buffer the single chunk `PowerStep:1\nCurrent:2\n` does
not leave PowerStep at `1` and Current at `2`; the Current sink keeps its text `0` and the
buffer is emptied, so the second line is never decoded. -/
theorem C3_counterexample :
    ¬ ((readData numberG10 w0 "PowerStep:1\nCurrent:2\n".toList).m_ui.sink Field.PowerStep =
          "1".toList ∧
        (readData numberG10 w0 "PowerStep:1\nCurrent:2\n".toList).m_ui.sink Field.Current =
          "2".toList) ∧
      (readData numberG10 w0 "PowerStep:1\nCurrent:2\n".toList).m_ui.sink Field.Current =
        "0".toList ∧
      (readData numberG10 w0 "PowerStep:1\nCurrent:2\n".toList).received_data = [] := by
  decide


theorem foldl_readData_no_newline (num : QString → QString) (chunks : List QString) :
    ∀ w : MainWindow, '\n' ∉ w.received_data → (∀ c ∈ chunks, '\n' ∉ c) →
      chunks.foldl (readData num) w =
        { w with received_data := w.received_data ++ chunks.foldr (· ++ ·) [] } := by
  induction chunks with
  | nil => intro w _ _; simp
  | cons c cs ih =>
    intro w hw hc
    have h1 : '\n' ∉ w.received_data ++ c := by
      simp only [List.mem_append, not_or]
      exact ⟨hw, hc c (by simp)⟩
    rw [List.foldl_cons, readData_m_ui_of_no_newline num w c h1,
      ih _ h1 (fun x hx => hc x (by simp [hx]))]
    simp [List.append_assoc]

theorem length_foldr_append (chunks : List QString) :
    (chunks.foldr (· ++ ·) []).length = (chunks.map List.length).sum := by
  induction chunks with
  | nil => rfl
  | cons c cs ih => simp [ih]

theorem fromUtf8Aux_ascii (data : QByteArray) :
    ∀ fuel, data.length ≤ fuel → (∀ b ∈ data, b.toNat < 0x80) →
      fromUtf8Aux fuel data = asciiText data := by
  induction data with
  | nil => intro fuel _ _; cases fuel <;> rfl
  | cons b t ih =>
    intro fuel hf ha
    cases fuel with
    | zero => simp at hf
    | succ k =>
      have hb : b.toNat < 0x80 := ha b (by simp)
      have hd : decodeOne b t = some (b.toNat, 1) := by
        unfold decodeOne
        simp only [hb, if_true]
      rw [fromUtf8Aux, hd]
      simp only [Nat.sub_self, List.drop_zero]
      rw [ih k (by simpa using hf) (fun x hx => ha x (by simp [hx]))]
      rfl

theorem fromUtf8_ascii (data : QByteArray) (ha : ∀ b ∈ data, b.toNat < 0x80) :
    fromUtf8 data = asciiText data :=
  fromUtf8Aux_ascii data data.length (Nat.le_refl _) ha

theorem ofNat_newline : ∀ n, n < 128 → Char.ofNat n = '\n' → n = 10 := by
  decide

theorem newline_not_mem_asciiText (data : QByteArray) (ha : ∀ b ∈ data, b.toNat < 0x80)
    (hn : ∀ b ∈ data, b.toNat ≠ 10) : '\n' ∉ asciiText data := by
  intro h
  simp only [asciiText, List.mem_map] at h
  obtain ⟨b, hb, e⟩ := h
  exact hn b hb (ofNat_newline _ (ha b hb) e)

theorem foldl_readDataBytes (num : QString → QString) (chunks : List QByteArray) :
    ∀ w : MainWindow, chunks.foldl (readDataBytes num) w =
      (chunks.map fromUtf8).foldl (readData num) w := by
  induction chunks with
  | nil => intro w; rfl
  | cons c cs ih => intro w; exact ih (readDataBytes num w c)

/-- C8 (as the code has it): with `t` the text that `received_data += data` decodes from the
bytes of a chunk, after `readData` the line buffer is the old buffer followed by `t` when that
text has no newline, and is empty otherwise, so it never holds a newline when `readData`
returns. From an empty buffer, chunks whose decoded texts have no newline change no sink and
leave a buffer that is the decoded texts in order, its length the sum of the lengths of the
decoded texts; when every byte of every chunk is ASCII and none is the newline byte, that
length is the sum of the byte lengths of the chunks. -/
theorem C8_line_buffer_after_readDataBytes :
    (∀ (num : QString → QString) (w : MainWindow) (data : QByteArray),
        ('\n' ∉ w.received_data ++ fromUtf8 data →
          (readDataBytes num w data).received_data = w.received_data ++ fromUtf8 data) ∧
        ('\n' ∈ w.received_data ++ fromUtf8 data →
          (readDataBytes num w data).received_data = []) ∧
        '\n' ∉ (readDataBytes num w data).received_data) ∧
    (∀ (num : QString → QString) (w : MainWindow) (chunks : List QByteArray),
        w.received_data = [] → (∀ c ∈ chunks, '\n' ∉ fromUtf8 c) →
        (∀ g, (chunks.foldl (readDataBytes num) w).m_ui.sink g = w.m_ui.sink g) ∧
        (chunks.foldl (readDataBytes num) w).m_ui = w.m_ui ∧
        (chunks.foldl (readDataBytes num) w).received_data =
          (chunks.map fromUtf8).foldr (· ++ ·) [] ∧
        (chunks.foldl (readDataBytes num) w).received_data.length =
          ((chunks.map fromUtf8).map List.length).sum) ∧
    (∀ (num : QString → QString) (w : MainWindow) (chunks : List QByteArray),
        w.received_data = [] →
        (∀ c ∈ chunks, ∀ b ∈ c, b.toNat < 0x80 ∧ b.toNat ≠ 10) →
        (∀ g, (chunks.foldl (readDataBytes num) w).m_ui.sink g = w.m_ui.sink g) ∧
        (chunks.foldl (readDataBytes num) w).received_data =
          (chunks.map asciiText).foldr (· ++ ·) [] ∧
        (chunks.foldl (readDataBytes num) w).received_data.length =
          (chunks.map List.length).sum) := by
  have text : ∀ (num : QString → QString) (w : MainWindow) (chunks : List QByteArray),
      w.received_data = [] → (∀ c ∈ chunks, '\n' ∉ fromUtf8 c) →
      chunks.foldl (readDataBytes num) w =
        { w with received_data := (chunks.map fromUtf8).foldr (· ++ ·) [] } := by
    intro num w chunks hw hc
    rw [foldl_readDataBytes, foldl_readData_no_newline num _ w (by rw [hw]; simp)
      (by
        intro t ht
        obtain ⟨c, hcm, rfl⟩ := List.mem_map.1 ht
        exact hc c hcm), hw]
    rfl
  refine ⟨?_, ?_, ?_⟩
  · intro num w data
    unfold readDataBytes
    by_cases h : '\n' ∈ w.received_data ++ fromUtf8 data
    · refine ⟨fun h2 => absurd h h2, fun _ => ?_, ?_⟩
      · rw [readData_eq, if_pos h]
      · rw [readData_eq, if_pos h]; simp
    · refine ⟨fun _ => ?_, fun h2 => absurd h2 h, ?_⟩
      · rw [readData_eq, if_neg h]
      · rw [readData_eq, if_neg h]; exact h
  · intro num w chunks hw hc
    rw [text num w chunks hw hc]
    exact ⟨fun g => rfl, rfl, rfl, length_foldr_append _⟩
  · intro num w chunks hw hc
    have hasc : ∀ c ∈ chunks, fromUtf8 c = asciiText c :=
      fun c hcm => fromUtf8_ascii c (fun b hb => (hc c hcm b hb).1)
    have hmap : chunks.map fromUtf8 = chunks.map asciiText := List.map_congr_left hasc
    have hnl : ∀ c ∈ chunks, '\n' ∉ fromUtf8 c := by
      intro c hcm
      rw [hasc c hcm]
      exact newline_not_mem_asciiText c (fun b hb => (hc c hcm b hb).1)
        (fun b hb => (hc c hcm b hb).2)
    rw [text num w chunks hw hnl, hmap]
    refine ⟨fun g => rfl, rfl, ?_⟩
    show ((chunks.map asciiText).foldr (· ++ ·) []).length = _
    rw [length_foldr_append, List.map_map]
    congr 1
    apply List.map_congr_left
    intro c _
    simp [asciiText]

theorem C8_line_buffer_after_readDataBytes_witness :
    (readDataBytes numberG10 w0 [80, 111, 119]).received_data =
        w0.received_data ++ fromUtf8 [80, 111, 119] ∧
      (readDataBytes numberG10 w0 [80, 58, 49, 10, 80]).received_data = [] ∧
      (([[195, 169], [80]] : List QByteArray).foldl (readDataBytes numberG10) w0
        ).received_data.length =
        ((([[195, 169], [80]] : List QByteArray).map fromUtf8).map List.length).sum ∧
      (([[80, 111], [119, 58], [55]] : List QByteArray).foldl (readDataBytes numberG10) w0
        ).received_data.length =
        (([[80, 111], [119, 58], [55]] : List QByteArray).map List.length).sum :=
  ⟨(C8_line_buffer_after_readDataBytes.1 numberG10 w0 [80, 111, 119]).1 (by decide),
    (C8_line_buffer_after_readDataBytes.1 numberG10 w0 [80, 58, 49, 10, 80]).2.1 (by decide),
    (C8_line_buffer_after_readDataBytes.2.1 numberG10 w0 [[195, 169], [80]] (by decide)
      (by decide)).2.2.2,
    (C8_line_buffer_after_readDataBytes.2.2 numberG10 w0 [[80, 111], [119, 58], [55]]
      (by decide) (by decide)).2.2⟩

/-- C8 as stated fails: from an empty buffer the single chunk of the two bytes `C3 A9` (the
UTF-8 form of `é`), which holds no newline byte, leaves a buffer holding the one character
`é`: its length is `1`, not the chunk length `2`. -/
theorem C8_counterexample :
    (∀ c ∈ ([[195, 169]] : List QByteArray), (10 : UInt8) ∉ c) ∧
      w0.received_data = [] ∧
      (([[195, 169]] : List QByteArray).foldl (readDataBytes numberG10) w0).received_data =
        ['é'] ∧
      (([[195, 169]] : List QByteArray).foldl (readDataBytes numberG10) w0
        ).received_data.length = 1 ∧
      (([[195, 169]] : List QByteArray).map List.length).sum = 2 ∧
      ¬ ((([[195, 169]] : List QByteArray).foldl (readDataBytes numberG10) w0
          ).received_data.length = (([[195, 169]] : List QByteArray).map List.length).sum) := by
  decide

/-- C9: when the old buffer followed by the first chunk has no newline, feeding two chunks in
two calls of `readData` gives the same window (line buffer, eight sinks and everything else) as
feeding their concatenation in one call. -/
theorem C9_chunk_boundary_independence (num : QString → QString) (w : MainWindow)
    (c1 c2 : QString) (h : '\n' ∉ w.received_data ++ c1) :
    readData num (readData num w c1) c2 = readData num w (c1 ++ c2) ∧
      (readData num (readData num w c1) c2).received_data =
        (readData num w (c1 ++ c2)).received_data ∧
      ∀ g, (readData num (readData num w c1) c2).m_ui.sink g =
        (readData num w (c1 ++ c2)).m_ui.sink g := by
  have e : readData num (readData num w c1) c2 = readData num w (c1 ++ c2) := by
    rw [readData_m_ui_of_no_newline num w c1 h, readData_eq, readData_eq]
    simp only [List.append_assoc]
  exact ⟨e, by rw [e], fun g => by rw [e]⟩

theorem C9_chunk_boundary_independence_witness :
    readData numberG10 (readData numberG10 w0 "Curr".toList) "ent:-3\n".toList =
      readData numberG10 w0 ("Curr".toList ++ "ent:-3\n".toList) :=
  (C9_chunk_boundary_independence numberG10 w0 "Curr".toList "ent:-3\n".toList
    (by decide)).1

/-- C10: in a line whose text before the first `:` is one of the eight field names, no
character of the name is a digit, the leftmost match of the pattern in the whole line starts
strictly after the first `:`, and matching the whole line gives the same captured text and the
same match/no-match outcome as matching only the payload after the first `:` (the start offset
is the payload offset moved by the length of the name and the `:`). -/
theorem C10_whole_line_match_is_payload_match (line : QString) (f : Field)
    (hcolon : ':' ∈ line) (hname : beforeColon line = f.name) :
    (∀ c ∈ f.name, isDigit c = false) ∧
      reMatch line =
        (reMatch (afterColon line)).map (fun p => (p.1 + (f.name.length + 1), p.2)) ∧
      (reMatch line).isSome = (reMatch (afterColon line)).isSome ∧
      (reMatch line).map Prod.snd = (reMatch (afterColon line)).map Prod.snd ∧
      (∀ i m, reMatch line = some (i, m) → f.name.length < i) := by
  have hl : line = f.name ++ ':' :: afterColon line := by
    have := eq_before_colon_after line hcolon
    rwa [hname] at this
  have hr : reMatch line =
      (reMatch (afterColon line)).map (fun p => (p.1 + (f.name.length + 1), p.2)) := by
    conv_lhs => rw [hl]
    exact reMatch_name_colon f _
  refine ⟨fun c hc => (name_no_digit_no_minus f c (by simp [hc])).1, hr, ?_, ?_, ?_⟩
  · rw [hr]; cases reMatch (afterColon line) <;> rfl
  · rw [hr]; cases reMatch (afterColon line) <;> rfl
  · intro i m hm
    rw [hr] at hm
    cases hp : reMatch (afterColon line) with
    | none => rw [hp] at hm; simp at hm
    | some p =>
      rw [hp] at hm
      simp only [Option.map_some', Option.some.injEq, Prod.mk.injEq] at hm
      omega

theorem C10_whole_line_match_is_payload_match_witness :
    reMatch "Mains input:= 231.4 V\n".toList =
      (reMatch (afterColon "Mains input:= 231.4 V\n".toList)).map
        (fun p => (p.1 + (Field.MainsInput.name.length + 1), p.2)) :=
  (C10_whole_line_match_is_payload_match "Mains input:= 231.4 V\n".toList Field.MainsInput
    (by decide) (by decide)).2.1


/-! ## The write tracker -/

theorem counter_step (w : MainWindow) (e : Event) :
    (step w e).m_bytesToWrite =
      match e with
      | Event.writeData data written =>
        if written = (data.length : Int) then w.m_bytesToWrite + written else w.m_bytesToWrite
      | Event.handleBytesWritten n => w.m_bytesToWrite - n
      | Event.elapse _ => w.m_bytesToWrite := by
  cases e with
  | writeData data written =>
    simp only [step, writeData]
    split_ifs <;> rfl
  | handleBytesWritten n =>
    simp only [step, handleBytesWritten]
    split_ifs <;> rfl
  | elapse ms =>
    simp only [step, elapse]
    cases w.m_timer with
    | none => rfl
    | some r =>
      simp only
      split_ifs <;> rfl

theorem confirmsWithinPending_cons (w : MainWindow) (e : Event) (es : List Event)
    (h : confirmsWithinPending w (e :: es) = true) :
    (∀ n, e = Event.handleBytesWritten n → 0 ≤ n ∧ n ≤ w.m_bytesToWrite) ∧
      confirmsWithinPending (step w e) es = true := by
  simp only [confirmsWithinPending, Bool.and_eq_true] at h
  refine ⟨?_, h.2⟩
  intro n hn
  subst hn
  simpa using h.1

theorem step_nonneg (w : MainWindow) (e : Event) (h0 : 0 ≤ w.m_bytesToWrite)
    (hc : ∀ n, e = Event.handleBytesWritten n → 0 ≤ n ∧ n ≤ w.m_bytesToWrite) :
    0 ≤ (step w e).m_bytesToWrite := by
  rw [counter_step]
  cases e with
  | writeData data written =>
    simp only
    split_ifs with hw
    · rw [hw]; omega
    · exact h0
  | handleBytesWritten n =>
    have := hc n rfl
    simp only
    omega
  | elapse ms => exact h0

theorem run_nonneg (es : List Event) :
    ∀ w : MainWindow, 0 ≤ w.m_bytesToWrite → confirmsWithinPending w es = true →
      0 ≤ (run w es).m_bytesToWrite := by
  induction es with
  | nil => intro w h _; exact h
  | cons e es ih =>
    intro w h hc
    obtain ⟨h1, h2⟩ := confirmsWithinPending_cons w e es hc
    exact ih (step w e) (step_nonneg w e h h1) h2

theorem step_armed_pos (w : MainWindow) (e : Event) (h0 : 0 ≤ w.m_bytesToWrite)
    (ht : w.m_timer ≠ none → 0 < w.m_bytesToWrite)
    (hc : ∀ n, e = Event.handleBytesWritten n → 0 ≤ n ∧ n ≤ w.m_bytesToWrite)
    (hd : ∀ data written, e = Event.writeData data written → data ≠ []) :
    (step w e).m_timer ≠ none → 0 < (step w e).m_bytesToWrite := by
  cases e with
  | writeData data written =>
    have hne := hd data written rfl
    have hlen : 0 < data.length := List.length_pos.2 hne
    simp only [step, writeData]
    split_ifs with hw
    · intro _
      show 0 < w.m_bytesToWrite + written
      rw [hw]; omega
    · exact ht
  | handleBytesWritten n =>
    have := hc n rfl
    simp only [step, handleBytesWritten]
    split_ifs with hz
    · intro h; exact absurd rfl h
    · intro _
      show 0 < w.m_bytesToWrite - n
      omega
  | elapse ms =>
    simp only [step, elapse]
    cases hm : w.m_timer with
    | none => simp only; rw [hm]; intro h; exact absurd rfl h
    | some r =>
      simp only
      split_ifs with hr
      · intro h; exact absurd rfl h
      · intro _
        exact ht (by rw [hm]; simp)

theorem run_armed_pos (es : List Event) :
    ∀ w : MainWindow, 0 ≤ w.m_bytesToWrite → (w.m_timer ≠ none → 0 < w.m_bytesToWrite) →
      confirmsWithinPending w es = true → writesNonEmpty es = true →
      0 ≤ (run w es).m_bytesToWrite ∧
        ((run w es).m_timer ≠ none → 0 < (run w es).m_bytesToWrite) := by
  induction es with
  | nil => intro w h ht _ _; exact ⟨h, ht⟩
  | cons e es ih =>
    intro w h ht hc hn
    obtain ⟨h1, h2⟩ := confirmsWithinPending_cons w e es hc
    simp only [writesNonEmpty, List.all_cons, Bool.and_eq_true] at hn
    have hd : ∀ data written, e = Event.writeData data written → data ≠ [] := by
      intro data written he
      subst he
      have := hn.1
      simp only [Bool.not_eq_true', List.isEmpty_eq_false] at this
      intro hnil
      subst hnil
      simp at this
    exact ih (step w e) (step_nonneg w e h h1) (step_armed_pos w e h ht h1 hd) h2
      (by simpa [writesNonEmpty] using hn.2)

theorem elapse_boxes (w : MainWindow) (ms : Nat) (h : (elapse w ms).boxes ≠ w.boxes) :
    ∃ r, w.m_timer = some r ∧ r ≤ ms ∧
      (elapse w ms).boxes = w.boxes ++ [MessageBox.warning "Warning".toList (writeTimeoutText w)]
      ∧ (elapse w ms).m_timer = none := by
  unfold elapse at h ⊢
  cases hm : w.m_timer with
  | none => rw [hm] at h; exact absurd rfl h
  | some r =>
    rw [hm] at h
    simp only at h ⊢
    by_cases hr : r ≤ ms
    · simp only [hr, if_true] at h ⊢
      exact ⟨r, rfl, hr, rfl, rfl⟩
    · simp only [hr, if_false] at h
      exact absurd rfl h


/-- C4 (as the code has it): from a window whose counter is `0`, after any sequence of
`writeData` calls, `handleBytesWritten(n)` calls and timer events in which every confirmation
satisfies `0 ≤ n ≤ m_bytesToWrite` at the moment it arrives, `m_bytesToWrite` is `≥ 0`; the
counter decreases only in `handleBytesWritten`, by exactly `n`, and nothing clamps it at
zero. -/
theorem C4_counter_nonneg_when_confirmations_bounded :
    (∀ (w : MainWindow) (es : List Event), w.m_bytesToWrite = 0 →
        confirmsWithinPending w es = true → 0 ≤ (run w es).m_bytesToWrite) ∧
    (∀ (w : MainWindow) (e : Event), (step w e).m_bytesToWrite < w.m_bytesToWrite →
        ∃ n, e = Event.handleBytesWritten n ∧ 0 < n ∧
          (step w e).m_bytesToWrite = w.m_bytesToWrite - n) ∧
    (∀ (w : MainWindow) (n : Int),
        (handleBytesWritten w n).m_bytesToWrite = w.m_bytesToWrite - n) := by
  refine ⟨fun w es h hc => run_nonneg es w (by rw [h]) hc, ?_, ?_⟩
  · intro w e h
    rw [counter_step] at h
    cases e with
    | writeData data written =>
      simp only at h
      split_ifs at h with hw
      · rw [hw] at h; omega
      · omega
    | handleBytesWritten n =>
      simp only at h
      exact ⟨n, rfl, by omega, counter_step w _⟩
    | elapse ms =>
      simp only at h
      omega
  · intro w n
    exact counter_step w (Event.handleBytesWritten n)

theorem C4_counter_nonneg_when_confirmations_bounded_witness :
    0 ≤ (run w0 [Event.writeData hello 5, Event.handleBytesWritten 2, Event.elapse 100,
      Event.handleBytesWritten 3]).m_bytesToWrite :=
  C4_counter_nonneg_when_confirmations_bounded.1 w0
    [Event.writeData hello 5, Event.handleBytesWritten 2, Event.elapse 100,
      Event.handleBytesWritten 3] (by decide) (by decide)

/-- C4 as stated fails: from the initial window, a write of five bytes of which the port
accepts three (reported as a write error, counter untouched) followed by the confirmation of
those three bytes leaves `m_bytesToWrite = -3`. -/
theorem C4_counterexample :
    w0.m_bytesToWrite = 0 ∧
      (run w0 [Event.writeData hello 3, Event.handleBytesWritten 3]).m_bytesToWrite = -3 ∧
      ¬ 0 ≤ (run w0 [Event.writeData hello 3, Event.handleBytesWritten 3]).m_bytesToWrite := by
  decide

/-- C5 (as the code has it): in every state reached from a window with counter `0` and
inactive timer by `writeData` calls with non-empty data, `handleBytesWritten(n)` calls with
`0 ≤ n ≤ m_bytesToWrite` at the moment they arrive, and passages of time, the timer is active
only while `m_bytesToWrite > 0` (with the counter at `0` the timer is inactive), and a passage
of time shows the write-timeout warning only when `m_bytesToWrite > 0`; the timer that fired
is inactive afterwards. -/
theorem C5_timer_active_only_while_pending (w : MainWindow) (es : List Event)
    (hcount : w.m_bytesToWrite = 0) (htimer : w.m_timer = none)
    (hconf : confirmsWithinPending w es = true) (hwrite : writesNonEmpty es = true) :
    ((run w es).m_timer ≠ none → 0 < (run w es).m_bytesToWrite) ∧
      ((run w es).m_bytesToWrite = 0 → (run w es).m_timer = none) ∧
      (∀ ms, (elapse (run w es) ms).boxes ≠ (run w es).boxes →
        0 < (run w es).m_bytesToWrite ∧ (elapse (run w es) ms).m_timer = none) := by
  have h := run_armed_pos es w (by rw [hcount]) (fun h => absurd htimer h) hconf hwrite
  refine ⟨h.2, ?_, ?_⟩
  · intro hz
    by_contra hne
    have := h.2 hne
    omega
  · intro ms hb
    obtain ⟨r, hr, _, _, hoff⟩ := elapse_boxes _ ms hb
    exact ⟨h.2 (by rw [hr]; simp), hoff⟩

theorem C5_timer_active_only_while_pending_witness :
    (run w0 [Event.writeData hello 5, Event.elapse 1000, Event.handleBytesWritten 5]).m_timer
      = none :=
  (C5_timer_active_only_while_pending w0
    [Event.writeData hello 5, Event.elapse 1000, Event.handleBytesWritten 5]
    (by decide) (by decide) (by decide) (by decide)).2.1 (by decide)

/-- C5 as stated fails: after `writeData` with empty data (the port accepts `0` of `0` bytes)
the counter is `0` and the timer is active, and five seconds later the write-timeout warning
is shown with the counter at `0`; and after a short write of three bytes, a full write of five
and the confirmations of three and five bytes, the counter is `-3` with the timer active. -/
theorem C5_counterexample :
    (run w0 [Event.writeData [] 0]).m_bytesToWrite = 0 ∧
      (run w0 [Event.writeData [] 0]).m_timer = some 5000 ∧
      (run w0 [Event.writeData [] 0, Event.elapse 5000]).boxes =
        [MessageBox.warning "Warning".toList (writeTimeoutText w0)] ∧
      (run w0 [Event.writeData [] 0, Event.elapse 5000]).m_bytesToWrite = 0 ∧
      (run w0 [Event.writeData hello 3, Event.writeData hello 5, Event.handleBytesWritten 3,
        Event.handleBytesWritten 5]).m_bytesToWrite = -3 ∧
      (run w0 [Event.writeData hello 3, Event.writeData hello 5, Event.handleBytesWritten 3,
        Event.handleBytesWritten 5]).m_timer = some 5000 := by
  decide

/-- C6: when the port accepts exactly `length(data)` bytes, `writeData` adds that amount to
`m_bytesToWrite`, starts the single-shot timer afresh with the full 5 seconds whatever time a
pending deadline had left, and shows no warning (the new deadline does not fire before 5000 ms
and fires once at 5000 ms); when the port returns any other count, `writeData` shows exactly
one write-error warning and leaves the counter and the timer as they were. -/
theorem C6_writeData_outcomes (w : MainWindow) (data : QByteArray) (written : Int) :
    (written = (data.length : Int) →
        (writeData w data written).m_bytesToWrite = w.m_bytesToWrite + (data.length : Int) ∧
        (writeData w data written).m_timer = some (5 * 1000) ∧
        (writeData w data written).boxes = w.boxes ∧
        (∀ ms, ms < 5000 → (elapse (writeData w data written) ms).boxes = w.boxes) ∧
        (elapse (writeData w data written) 5000).boxes =
          w.boxes ++ [MessageBox.warning "Warning".toList (writeTimeoutText w)] ∧
        (elapse (writeData w data written) 5000).m_timer = none) ∧
    (written ≠ (data.length : Int) →
        (writeData w data written).boxes =
          w.boxes ++ [MessageBox.warning "Warning".toList (writeFailedText w)] ∧
        (writeData w data written).m_bytesToWrite = w.m_bytesToWrite ∧
        (writeData w data written).m_timer = w.m_timer) := by
  constructor
  · intro h
    have e : writeData w data written =
        { w with m_bytesToWrite := w.m_bytesToWrite + written, m_timer := some 5000 } := by
      simp only [writeData, h, if_true, kWriteTimeout]
    rw [e]
    refine ⟨by rw [h], rfl, rfl, ?_, ?_, ?_⟩
    · intro ms hms
      have : ¬ (5000 ≤ ms) := by omega
      simp only [elapse, this, if_false]
    · simp [elapse, handleWriteTimeout, showWriteError, writeTimeoutText]
    · simp [elapse, handleWriteTimeout, showWriteError]
  · intro h
    have e : writeData w data written = showWriteError w (writeFailedText w) := by
      simp only [writeData, h, if_false]
    rw [e]
    exact ⟨rfl, rfl, rfl⟩

theorem C6_writeData_outcomes_witness :
    (writeData w0 hello 5).m_bytesToWrite = w0.m_bytesToWrite + 5 ∧
      (writeData w0 hello 3).m_bytesToWrite = w0.m_bytesToWrite :=
  ⟨((C6_writeData_outcomes w0 hello 5).1 (by decide)).1,
    ((C6_writeData_outcomes w0 hello 3).2 (by decide)).2.1⟩

/-- C7 (as the code has it): `closeSerialPort`, called by the user or through `handleError` on
a `ResourceError`, closes the port, enables connect and configure, disables disconnect and
shows `Disconnected`; on both paths it leaves `m_bytesToWrite`, `received_data`, the write
timer and the eight sinks exactly as they were (the forced path first shows the critical
box). `handleError` with any other error changes nothing. -/
theorem C7_closeSerialPort_keeps_transient_state :
    (∀ w : MainWindow,
        (closeSerialPort w).m_serial.isOpen = false ∧
        (closeSerialPort w).m_status = "Disconnected".toList ∧
        (closeSerialPort w).m_ui.actionConnect = true ∧
        (closeSerialPort w).m_ui.actionDisconnect = false ∧
        (closeSerialPort w).m_ui.actionConfigure = true ∧
        (closeSerialPort w).m_bytesToWrite = w.m_bytesToWrite ∧
        (closeSerialPort w).received_data = w.received_data ∧
        (closeSerialPort w).m_timer = w.m_timer ∧
        (∀ g, (closeSerialPort w).m_ui.sink g = w.m_ui.sink g)) ∧
    (∀ w : MainWindow,
        (handleError w SerialPortError.ResourceError).m_serial.isOpen = false ∧
        (handleError w SerialPortError.ResourceError).m_status = "Disconnected".toList ∧
        (handleError w SerialPortError.ResourceError).m_ui.actionConnect = true ∧
        (handleError w SerialPortError.ResourceError).m_ui.actionDisconnect = false ∧
        (handleError w SerialPortError.ResourceError).m_ui.actionConfigure = true ∧
        (handleError w SerialPortError.ResourceError).boxes =
          w.boxes ++ [MessageBox.critical "Critical Error".toList w.m_serial.errorString] ∧
        (handleError w SerialPortError.ResourceError).m_bytesToWrite = w.m_bytesToWrite ∧
        (handleError w SerialPortError.ResourceError).received_data = w.received_data ∧
        (handleError w SerialPortError.ResourceError).m_timer = w.m_timer ∧
        (∀ g, (handleError w SerialPortError.ResourceError).m_ui.sink g = w.m_ui.sink g)) ∧
    (∀ (w : MainWindow) (error : SerialPortError), error ≠ SerialPortError.ResourceError →
        handleError w error = w) := by
  have close : ∀ w : MainWindow,
      (closeSerialPort w).m_serial.isOpen = false ∧
      (closeSerialPort w).m_status = "Disconnected".toList ∧
      (closeSerialPort w).m_ui.actionConnect = true ∧
      (closeSerialPort w).m_ui.actionDisconnect = false ∧
      (closeSerialPort w).m_ui.actionConfigure = true ∧
      (closeSerialPort w).m_bytesToWrite = w.m_bytesToWrite ∧
      (closeSerialPort w).received_data = w.received_data ∧
      (closeSerialPort w).m_timer = w.m_timer ∧
      (closeSerialPort w).boxes = w.boxes ∧
      (∀ g, (closeSerialPort w).m_ui.sink g = w.m_ui.sink g) := by
    intro w
    refine ⟨?_, rfl, rfl, rfl, rfl, ?_, ?_, ?_, ?_, ?_⟩
    · simp only [closeSerialPort, showStatusMessage]
      split_ifs with h
      · rfl
      · simpa using h
    all_goals
      simp only [closeSerialPort, showStatusMessage]
      split_ifs <;> first | rfl | (intro g; cases g <;> rfl)
  refine ⟨?_, ?_, ?_⟩
  · intro w
    obtain ⟨h1, h2, h3, h4, h5, h6, h7, h8, _, h10⟩ := close w
    exact ⟨h1, h2, h3, h4, h5, h6, h7, h8, h10⟩
  · intro w
    have e : handleError w SerialPortError.ResourceError =
        closeSerialPort { w with boxes := w.boxes ++
          [MessageBox.critical "Critical Error".toList w.m_serial.errorString] } := by
      simp only [handleError, if_true]
    rw [e]
    obtain ⟨h1, h2, h3, h4, h5, h6, h7, h8, h9, h10⟩ := close { w with boxes := w.boxes ++
      [MessageBox.critical "Critical Error".toList w.m_serial.errorString] }
    exact ⟨h1, h2, h3, h4, h5, h9, h6, h7, h8, h10⟩
  · intro w error h
    simp only [handleError, h, if_false]

theorem C7_closeSerialPort_keeps_transient_state_witness :
    wBusy.m_serial.isOpen = true ∧ wBusy.m_bytesToWrite = 5 ∧
      (closeSerialPort wBusy).m_serial.isOpen = false ∧
      (closeSerialPort wBusy).m_bytesToWrite = wBusy.m_bytesToWrite ∧
      (handleError wBusy SerialPortError.ResourceError).m_status = "Disconnected".toList ∧
      (handleError wBusy SerialPortError.ResourceError).m_timer = wBusy.m_timer ∧
      handleError wBusy SerialPortError.TimeoutError = wBusy :=
  ⟨by decide, by decide,
    (C7_closeSerialPort_keeps_transient_state.1 wBusy).1,
    (C7_closeSerialPort_keeps_transient_state.1 wBusy).2.2.2.2.2.1,
    (C7_closeSerialPort_keeps_transient_state.2.1 wBusy).2.1,
    (C7_closeSerialPort_keeps_transient_state.2.1 wBusy).2.2.2.2.2.2.2.2.1,
    C7_closeSerialPort_keeps_transient_state.2.2 wBusy SerialPortError.TimeoutError
      (by decide)⟩

/-- C7 as stated fails: open the port, write five bytes that the port accepts, receive `abc`,
then disconnect (by the user, or by a `ResourceError`): the port is closed but the counter is
still `5`, the line buffer still holds `abc`, the timer is still active, and five seconds
later the write-timeout warning is shown. -/
theorem C7_counterexample :
    (closeSerialPort (readData numberG10 (writeData (openSerialPort w0 com1 true) hello 5)
        "abc".toList)).m_serial.isOpen = false ∧
      (closeSerialPort (readData numberG10 (writeData (openSerialPort w0 com1 true) hello 5)
        "abc".toList)).m_bytesToWrite = 5 ∧
      (closeSerialPort (readData numberG10 (writeData (openSerialPort w0 com1 true) hello 5)
        "abc".toList)).received_data = "abc".toList ∧
      (closeSerialPort (readData numberG10 (writeData (openSerialPort w0 com1 true) hello 5)
        "abc".toList)).m_timer = some 5000 ∧
      (elapse (closeSerialPort (readData numberG10
        (writeData (openSerialPort w0 com1 true) hello 5) "abc".toList)) 5000).boxes =
        [MessageBox.warning "Warning".toList
          "Write operation timed out for port COM1.\nError: ".toList] ∧
      (handleError (readData numberG10 (writeData (openSerialPort w0 com1 true) hello 5)
        "abc".toList) SerialPortError.ResourceError).m_bytesToWrite = 5 ∧
      (handleError (readData numberG10 (writeData (openSerialPort w0 com1 true) hello 5)
        "abc".toList) SerialPortError.ResourceError).received_data = "abc".toList ∧
      (handleError (readData numberG10 (writeData (openSerialPort w0 com1 true) hello 5)
        "abc".toList) SerialPortError.ResourceError).m_timer = some 5000 := by
  decide

end SerialMonitor
